import Mathlib

set_option linter.unusedVariables false
set_option maxRecDepth 4096

/-!
Shallow embedding of src/WiFi/ESP8266/ESP8266_Serial.c (simple serial buffer
for the ESP8266 WiFi driver).  Driver calls (CMSIS USART) are external
collaborators: their return statuses and their synchronously queried counters
are passed to each embedded function as explicit oracle parameters, and the
asynchronous completion handler UART_Callback is a function of the event word
and the current state.  All counters are unsigned 32-bit values, embedded as
Nat reduced modulo 2 ^ 32 exactly where the C arithmetic wraps.
-/

namespace ESP8266Serial

/-- Modulus of unsigned 32-bit arithmetic. -/
def U32 : Nat := 4294967296

/-- Unsigned 32-bit subtraction: the value of the C expression a - b on
uint32 operands, as a Nat below 2 ^ 32. -/
def u32sub (a b : Nat) : Nat := (a % U32 + (U32 - b % U32)) % U32

/-- ARM_DRIVER_OK from the CMSIS driver interface. -/
def ARM_DRIVER_OK : Int := 0

/-- ARM_USART_EVENT_SEND_COMPLETE, bit 0 of the USART event word. -/
def ARM_USART_EVENT_SEND_COMPLETE : Nat := 1

/-- ARM_USART_EVENT_RECEIVE_COMPLETE, bit 1 of the USART event word. -/
def ARM_USART_EVENT_RECEIVE_COMPLETE : Nat := 2

/-- ARM_USART_EVENT_RX_TIMEOUT, bit 6 of the USART event word. -/
def ARM_USART_EVENT_RX_TIMEOUT : Nat := 64

/-- Default receive buffer size SERIAL_RXBUF_SZ (512 unless overridden). -/
def SERIAL_RXBUF_SZ : Nat := 512

/-- Default transmit buffer size SERIAL_TXBUF_SZ (512 unless overridden). -/
def SERIAL_TXBUF_SZ : Nat := 512

/-- Modelled from the spec: the three upper-layer callback flags are declared
in ESP8266_Serial.h, which is not among the sources; the spec only requires
three distinct flags (data available, receive error, transmit completed)
merged into one bitset, so they are modelled as three distinct bits. -/
def SERIAL_CB_RX_DATA_AVAILABLE : Nat := 1

/-- Modelled from the spec: receive error flag bit (see
SERIAL_CB_RX_DATA_AVAILABLE). -/
def SERIAL_CB_RX_ERROR : Nat := 2

/-- Modelled from the spec: transmit completed flag bit (see
SERIAL_CB_RX_DATA_AVAILABLE). -/
def SERIAL_CB_TX_DATA_COMPLETED : Nat := 4

/-- Serial control structure SERIAL_COM of the source.  The drv pointer and
the reserved padding bytes carry no state used by any operation and are
omitted; the four counters are uint32/uint8 fields kept as Nat. -/
structure SERIAL_COM where
  rxc : Nat
  rxi : Nat
  txi : Nat
  txb : Nat

/-- Result of Serial_Initialize: the control structure written by the call,
the returned error code, and whether a driver receive request was
successfully submitted (armed). -/
structure InitOut where
  com : SERIAL_COM
  err : Int
  armed : Bool

/-- Serial_Initialize.  Oracle parameters are the driver return statuses of,
in call order: Initialize, PowerControl, Control (mode), Control (TX enable),
Control (RX enable), Receive.  The source checks only the Initialize and
Receive statuses; the other four are ignored, exactly as in the C code. -/
def Serial_Init (initStat powerStat ctlModeStat ctlTxStat ctlRxStat
    recvStat : Int) : InitOut :=
  let com : SERIAL_COM := ⟨0, 0, 0, 0⟩
  if initStat = ARM_DRIVER_OK then
    if recvStat = ARM_DRIVER_OK then ⟨com, 0, true⟩
    else ⟨com, 1, false⟩
  else ⟨com, 1, false⟩

/-- Result of Serial_Uninitialize: return value, control structure and both
buffers after the call.  Buffers are total functions from index to byte;
the memset zeroes the indices below the buffer size. -/
structure UninitOut where
  ret : Int
  com : SERIAL_COM
  rxbuf : Nat → Nat
  txbuf : Nat → Nat

/-- Serial_Uninitialize: powers the driver off, releases it, zeroes both
buffers and returns 0.  Note that the control structure Com is not touched
by the source. -/
def Serial_Uninit (rxbuf txbuf : Nat → Nat) (s : SERIAL_COM) : UninitOut :=
  ⟨0, s,
   fun j => if j < SERIAL_RXBUF_SZ then 0 else rxbuf j,
   fun j => if j < SERIAL_TXBUF_SZ then 0 else txbuf j⟩

/-- Result of Serial_SetBaudrate. -/
structure BaudOut where
  com : SERIAL_COM
  err : Int

/-- Serial_SetBaudrate.  Oracle parameters are the driver statuses of
Control (abort receive), Control (mode at the new rate), Control (TX),
Control (RX) and Receive; the TX/RX enable statuses are ignored by the
source.  The four state fields are reset before any status is checked. -/
def Serial_SetBaudrate (abortStat cfgStat ctlTxStat ctlRxStat recvStat : Int)
    (baudrate : Nat) (s : SERIAL_COM) : BaudOut :=
  let com : SERIAL_COM := ⟨0, 0, 0, 0⟩
  let status :=
    if abortStat = ARM_DRIVER_OK then
      if cfgStat = ARM_DRIVER_OK then recvStat else cfgStat
    else abortStat
  ⟨com, if status = ARM_DRIVER_OK then 0 else 1⟩

/-- Serial_GetTxFree: full capacity when not busy, zero when busy. -/
def Serial_GetTxFree (s : SERIAL_COM) : Nat :=
  if s.txb ≠ 0 then 0 else SERIAL_TXBUF_SZ

/-- Result of Serial_SendBuf: transmit buffer after the memcpy, control
structure, returned value n, and the length submitted to the driver. -/
structure SendOut where
  txbuf : Nat → Nat
  com : SERIAL_COM
  n : Int
  submitted : Nat

/-- Serial_SendBuf.  buf is the input data (by index), sendStat the driver
Send status, txbuf the transmit buffer contents before the call. -/
def Serial_SendBuf (buf : Nat → Nat) (len : Nat) (sendStat : Int)
    (txbuf : Nat → Nat) (s : SERIAL_COM) : SendOut :=
  let cnt := if len > SERIAL_TXBUF_SZ then SERIAL_TXBUF_SZ else len
  let txbuf1 : Nat → Nat := fun j => if j < cnt then buf j else txbuf j
  if sendStat = ARM_DRIVER_OK then
    ⟨txbuf1, { s with txb := 1 }, (cnt : Int), cnt⟩
  else
    ⟨txbuf1, { s with txb := 0 }, -1, cnt⟩

/-- Body of the copy loop of Serial_ReadBuf: per byte, k takes the current
uint32 value of rxi (incremented modulo 2 ^ 32 afterwards) and is masked
with R - 1 to index RxBuf.  Returns the bytes copied out in order and the
final value of rxi. -/
def serialReadLoop (R : Nat) (rxbuf : Nat → Nat) : Nat → Nat → List Nat × Nat
  | rxi, 0 => ([], rxi)
  | rxi, n + 1 =>
    let k := rxi &&& (R - 1)
    let r := serialReadLoop R rxbuf ((rxi + 1) % U32) n
    (rxbuf k :: r.1, r.2)

/-- Result of Serial_ReadBuf: bytes copied to the output buffer, control
structure after the call, and the count n that the function returns. -/
structure ReadOut where
  bytes : List Nat
  com : SERIAL_COM
  n : Nat

/-- Serial_ReadBuf.  R is the receive buffer capacity SERIAL_RXBUF_SZ,
rxbuf the receive buffer contents, u the value the driver returns from
GetRxCount at this moment, len the requested length. -/
def Serial_ReadBuf (R : Nat) (rxbuf : Nat → Nat) (u len : Nat)
    (s : SERIAL_COM) : ReadOut :=
  let n0 := u32sub ((s.rxc + u) % U32) s.rxi
  let n := if n0 > len then len else n0
  let r := serialReadLoop R rxbuf s.rxi n
  ⟨r.1, { s with rxi := r.2 }, n⟩

/-- Serial_GetRxCount: rxc plus the driver count u minus rxi, in uint32
arithmetic. -/
def Serial_GetRxCount (u : Nat) (s : SERIAL_COM) : Nat :=
  u32sub ((s.rxc + u) % U32) s.rxi

/-- Result of UART_Callback: control structure after the call, the merged
flag set, the lengths of the receive requests submitted during the call,
and the list of flag words passed to Serial_Cb, in call order. -/
structure CbOut where
  com : SERIAL_COM
  flags : Nat
  rxSubmits : List Nat
  cbCalls : List Nat

/-- UART_Callback.  R is the receive buffer capacity, recvStat the status
the driver returns for the re-arming Receive call (consulted only when that
call happens), event the driver event word. -/
def UART_Callback (R : Nat) (recvStat : Int) (event : Nat)
    (s : SERIAL_COM) : CbOut :=
  let p1 : Nat × List Nat × SERIAL_COM :=
    if event &&& (ARM_USART_EVENT_RX_TIMEOUT |||
        ARM_USART_EVENT_RECEIVE_COMPLETE) ≠ 0 then
      if event &&& ARM_USART_EVENT_RECEIVE_COMPLETE ≠ 0 then
        ((if recvStat ≠ ARM_DRIVER_OK then
            SERIAL_CB_RX_DATA_AVAILABLE ||| SERIAL_CB_RX_ERROR
          else SERIAL_CB_RX_DATA_AVAILABLE),
         [R], { s with rxc := (s.rxc + R) % U32 })
      else (SERIAL_CB_RX_DATA_AVAILABLE, [], s)
    else (0, [], s)
  let p2 : Nat × SERIAL_COM :=
    if event &&& ARM_USART_EVENT_SEND_COMPLETE ≠ 0 then
      (p1.1 ||| SERIAL_CB_TX_DATA_COMPLETED, { p1.2.2 with txb := 0 })
    else (p1.1, p1.2.2)
  ⟨p2.2, p2.1, p1.2.1, [p2.1]⟩

/-- Serial_Cb: default weak implementation, a no-op. -/
def Serial_Cb (event : Nat) : Unit := ()

/-- Operations of the receive-side environment used to state the ring
invariant: arrive k models the driver receiving k further bytes into the
current in-flight request (clamped at capacity), complete models
UART_Callback with ARM_USART_EVENT_RECEIVE_COMPLETE, read models
Serial_ReadBuf with the current in-flight driver count. -/
inductive SOp where
  | arrive (k : Nat)
  | complete (recvStat : Int)
  | read (len : Nat)

/-- One environment step over the pair (control structure, driver count of
the current in-flight receive request). -/
def envStep (R : Nat) (st : SERIAL_COM × Nat) (op : SOp) : SERIAL_COM × Nat :=
  match op with
  | .arrive k => (st.1, min (st.2 + k) R)
  | .complete rs =>
      ((UART_Callback R rs ARM_USART_EVENT_RECEIVE_COMPLETE st.1).com, 0)
  | .read len => ((Serial_ReadBuf R (fun _ => 0) st.2 len st.1).com, st.2)

/-- Run of an operation sequence from a state. -/
def envRun (R : Nat) (st : SERIAL_COM × Nat) (ops : List SOp) :
    SERIAL_COM × Nat :=
  ops.foldl (envStep R) st

/-- Number of receive completions in an operation sequence. -/
def completeCount : List SOp → Nat
  | [] => 0
  | .complete _ :: t => completeCount t + 1
  | .arrive _ :: t => completeCount t
  | .read _ :: t => completeCount t

/-- Inductive invariant of the receive-side environment: c completions have
happened, rxi never exceeds rxc plus the in-flight driver count, and the
in-flight count never exceeds the capacity. -/
def EnvInv (c : Nat) (st : SERIAL_COM × Nat) : Prop :=
  st.1.rxc = 512 * c ∧ st.1.rxi ≤ st.1.rxc + st.2 ∧ st.2 ≤ 512

/-! Helper lemmas. -/

/-- Bitwise or is zero only if the right operand is zero. -/
theorem or_eq_zero_right {a b : Nat} (h : a ||| b = 0) : b = 0 := by
  apply Nat.zero_of_testBit_eq_false
  intro i
  have hb := congrArg (fun x => Nat.testBit x i) h
  simp only [Nat.testBit_or, Nat.zero_testBit, Bool.or_eq_false_iff] at hb
  exact hb.2

/-- Bitwise or is zero only if the left operand is zero. -/
theorem or_eq_zero_left {a b : Nat} (h : a ||| b = 0) : a = 0 := by
  apply Nat.zero_of_testBit_eq_false
  intro i
  have hb := congrArg (fun x => Nat.testBit x i) h
  simp only [Nat.testBit_or, Nat.zero_testBit, Bool.or_eq_false_iff] at hb
  exact hb.1

/-- Unsigned 32-bit subtraction agrees with Nat subtraction when there is no
borrow and the minuend is in range. -/
theorem u32sub_exact {a b : Nat} (hb : b ≤ a) (ha : a < U32) :
    u32sub a b = a - b := by
  have hbl : b < U32 := lt_of_le_of_lt hb ha
  unfold u32sub
  rw [Nat.mod_eq_of_lt ha, Nat.mod_eq_of_lt hbl]
  have hrw : a + (U32 - b) = (a - b) + U32 := by
    unfold U32 at *; omega
  rw [hrw, Nat.add_mod_right, Nat.mod_eq_of_lt (by unfold U32 at *; omega)]

/-- Final rxi after the copy loop, in the regime without uint32 wraparound
of the index. -/
theorem serialReadLoop_idx (R : Nat) (f : Nat → Nat) :
    ∀ (n a : Nat), a + n < U32 → (serialReadLoop R f a n).2 = a + n := by
  intro n
  induction n with
  | zero => intro a h; simp [serialReadLoop]
  | succ m ih =>
    intro a h
    have h1 : (a + 1) % U32 = a + 1 := Nat.mod_eq_of_lt (by omega)
    simp only [serialReadLoop, h1]
    rw [ih (a + 1) (by omega)]
    omega

/-- Bytes produced by the copy loop: when the physical buffer agrees with a
logical stream on the window read (each logical position j stored at
j mod 2 ^ k), the loop returns the stream in logical order. -/
theorem serialReadLoop_bytes (k : Nat) (f stream : Nat → Nat) :
    ∀ (n a : Nat), a + n < U32 →
      (∀ i, i < n → f ((a + i) % 2 ^ k) = stream (a + i)) →
      (serialReadLoop (2 ^ k) f a n).1 =
        (List.range n).map (fun i => stream (a + i)) := by
  intro n
  induction n with
  | zero => intro a h hb; simp [serialReadLoop]
  | succ m ih =>
    intro a h hb
    have h1 : (a + 1) % U32 = a + 1 := Nat.mod_eq_of_lt (by omega)
    simp only [serialReadLoop, h1]
    have hmask : a &&& (2 ^ k - 1) = a % 2 ^ k :=
      Nat.and_pow_two_sub_one_eq_mod a k
    have hhead : f (a &&& (2 ^ k - 1)) = stream a := by
      have := hb 0 (Nat.succ_pos m)
      simpa [hmask] using this
    have htail : (serialReadLoop (2 ^ k) f (a + 1) m).1 =
        (List.range m).map (fun i => stream (a + 1 + i)) := by
      apply ih (a + 1) (by omega)
      intro i hi
      have := hb (i + 1) (by omega)
      have harr : a + (i + 1) = a + 1 + i := by omega
      rwa [harr] at this
    rw [List.range_succ_eq_map]
    simp only [List.map_cons, List.map_map]
    rw [hhead, htail]
    simp only [Nat.add_zero]
    congr 1
    apply List.map_congr_left
    intro i hi
    simp only [Function.comp_apply]
    congr 1
    omega

/-- State effect of UART_Callback on a pure receive completion: rxc is
advanced by the capacity modulo 2 ^ 32 and nothing else changes. -/
theorem uartCb_complete_state (R : Nat) (rs : Int) (s : SERIAL_COM) :
    (UART_Callback R rs ARM_USART_EVENT_RECEIVE_COMPLETE s).com =
      { s with rxc := (s.rxc + R) % U32 } := rfl

/-- State effect of Serial_ReadBuf in the regime without counter
wraparound: rxi advances by the returned count, the minimum of the bytes
available and the requested length; rxc is untouched. -/
theorem readBuf_state (R : Nat) (rxbuf : Nat → Nat) (u len : Nat)
    (s : SERIAL_COM) (hle : s.rxi ≤ s.rxc + u) (hlt : s.rxc + u < U32) :
    (Serial_ReadBuf R rxbuf u len s).com.rxi =
      s.rxi + min (s.rxc + u - s.rxi) len ∧
    (Serial_ReadBuf R rxbuf u len s).com.rxc = s.rxc ∧
    (Serial_ReadBuf R rxbuf u len s).n = min (s.rxc + u - s.rxi) len := by
  have h0 : (s.rxc + u) % U32 = s.rxc + u := Nat.mod_eq_of_lt hlt
  have hsub : u32sub ((s.rxc + u) % U32) s.rxi = s.rxc + u - s.rxi := by
    rw [h0]; exact u32sub_exact hle hlt
  have hmin : (if s.rxc + u - s.rxi > len then len else s.rxc + u - s.rxi)
      = min (s.rxc + u - s.rxi) len := by
    split <;> omega
  have hidx : (serialReadLoop R rxbuf s.rxi
      (min (s.rxc + u - s.rxi) len)).2 =
      s.rxi + min (s.rxc + u - s.rxi) len :=
    serialReadLoop_idx R rxbuf _ s.rxi (by omega)
  simp only [Serial_ReadBuf, hsub, hmin, hidx]
  exact ⟨trivial, trivial, trivial⟩

/-- Equation lemma: an arrive step leaves the control structure alone and
clamps the in-flight count at the capacity. -/
theorem envStep_arrive (R k : Nat) (st : SERIAL_COM × Nat) :
    envStep R st (SOp.arrive k) = (st.1, min (st.2 + k) R) := rfl

/-- Equation lemma: a completion step advances rxc by the capacity modulo
2 ^ 32 and resets the in-flight count. -/
theorem envStep_complete (R : Nat) (rs : Int) (st : SERIAL_COM × Nat) :
    envStep R st (SOp.complete rs) =
      ({ st.1 with rxc := (st.1.rxc + R) % U32 }, 0) := rfl

/-- Equation lemma: a read step runs Serial_ReadBuf at the in-flight
count. -/
theorem envStep_read (R len : Nat) (st : SERIAL_COM × Nat) :
    envStep R st (SOp.read len) =
      ((Serial_ReadBuf R (fun _ => 0) st.2 len st.1).com, st.2) := rfl

/-- Preservation of the environment invariant along a run, as long as the
number of completions keeps the 32-bit byte counter away from wraparound. -/
theorem envRun_inv : ∀ (ops : List SOp) (st : SERIAL_COM × Nat) (c : Nat),
    c + completeCount ops ≤ 2 ^ 23 - 2 → EnvInv c st →
    EnvInv (c + completeCount ops) (envRun 512 st ops) := by
  intro ops
  induction ops with
  | nil =>
    intro st c h hinv
    simpa [envRun, completeCount] using hinv
  | cons op rest ih =>
    intro st c h hinv
    obtain ⟨hc, hle, hp⟩ := hinv
    cases op with
    | arrive k =>
      have hstep : EnvInv c (envStep 512 st (SOp.arrive k)) := by
        rw [envStep_arrive]
        exact ⟨hc, by show st.1.rxi ≤ st.1.rxc + min (st.2 + k) 512; omega,
               by show min (st.2 + k) 512 ≤ 512; omega⟩
      have h2 : completeCount (SOp.arrive k :: rest) = completeCount rest :=
        rfl
      rw [h2] at h ⊢
      exact ih (envStep 512 st (SOp.arrive k)) c h hstep
    | complete rs =>
      have hcnt : completeCount (SOp.complete rs :: rest) =
          completeCount rest + 1 := rfl
      rw [hcnt] at h
      have hbound : 512 * (c + 1) < U32 := by
        unfold U32; omega
      have hrxc : (st.1.rxc + 512) % U32 = 512 * (c + 1) := by
        rw [hc, Nat.mod_eq_of_lt (by omega)]
        omega
      have hstep : EnvInv (c + 1) (envStep 512 st (SOp.complete rs)) := by
        rw [envStep_complete]
        refine ⟨hrxc, ?_, Nat.zero_le 512⟩
        show st.1.rxi ≤ (st.1.rxc + 512) % U32 + 0
        rw [hrxc]
        omega
      have h3 : c + (completeCount rest + 1) = (c + 1) + completeCount rest :=
        by omega
      rw [hcnt, h3]
      rw [h3] at h
      exact ih (envStep 512 st (SOp.complete rs)) (c + 1) h hstep
    | read len =>
      have h2 : completeCount (SOp.read len :: rest) = completeCount rest :=
        rfl
      rw [h2] at h ⊢
      have hlt : st.1.rxc + st.2 < U32 := by
        rw [hc]
        have hcle : c ≤ 2 ^ 23 - 2 := by omega
        unfold U32; omega
      obtain ⟨hri, hrc, -⟩ :=
        readBuf_state 512 (fun _ => 0) st.2 len st.1 hle hlt
      have hstep : EnvInv c (envStep 512 st (SOp.read len)) := by
        rw [envStep_read]
        refine ⟨?_, ?_, hp⟩
        · show (Serial_ReadBuf 512 (fun _ => 0) st.2 len st.1).com.rxc =
            512 * c
          rw [hrc]; exact hc
        · show (Serial_ReadBuf 512 (fun _ => 0) st.2 len st.1).com.rxi ≤
            (Serial_ReadBuf 512 (fun _ => 0) st.2 len st.1).com.rxc + st.2
          rw [hri, hrc]
          omega
      exact ih (envStep 512 st (SOp.read len)) c h hstep

/-- Claim C1, counterexample.  From the initialized state, after the driver
receives one byte into the in-flight request (GetRxCount = 1) a single
Serial_ReadBuf of length 1 consumes that byte: rxConsumed (rxi) becomes 1
while rxTotal (rxc) is still 0, so the stated invariant rxi less-or-equal
rxc is violated immediately after the read. -/
theorem ring_invariant_claim_false :
    (envRun 512 (⟨0, 0, 0, 0⟩, 0) [SOp.arrive 1, SOp.read 1]).1.rxc <
      (envRun 512 (⟨0, 0, 0, 0⟩, 0) [SOp.arrive 1, SOp.read 1]).1.rxi := by
  decide

/-- Claim C1, amended.  For every sequence of byte arrivals,
receive-complete events and Serial_ReadBuf calls from the initialized
state, as long as fewer than 2 ^ 23 - 1 completions occur (so the 32-bit
byte counter rxc cannot wrap), rxConsumed never exceeds rxTotal plus the
count of bytes the driver has received into the current in-flight request:
rxi is less-or-equal rxc + pending after every operation. -/
theorem ring_invariant_amended (ops : List SOp)
    (hc : completeCount ops ≤ 2 ^ 23 - 2) :
    (envRun 512 (⟨0, 0, 0, 0⟩, 0) ops).1.rxi ≤
      (envRun 512 (⟨0, 0, 0, 0⟩, 0) ops).1.rxc +
        (envRun 512 (⟨0, 0, 0, 0⟩, 0) ops).2 :=
  (envRun_inv ops (⟨0, 0, 0, 0⟩, 0) 0 (by omega)
    ⟨by simp, Nat.le_refl 0, Nat.zero_le 512⟩).2.1

/-- Claim C1, witness for the amended theorem at a concrete run: one
completion followed by a read of 10 bytes. -/
theorem ring_invariant_amended_inst :
    completeCount [SOp.complete 0, SOp.read 10] ≤ 2 ^ 23 - 2 ∧
    (envRun 512 (⟨0, 0, 0, 0⟩, 0) [SOp.complete 0, SOp.read 10]).1.rxi ≤
      (envRun 512 (⟨0, 0, 0, 0⟩, 0) [SOp.complete 0, SOp.read 10]).1.rxc +
        (envRun 512 (⟨0, 0, 0, 0⟩, 0) [SOp.complete 0, SOp.read 10]).2 :=
  ⟨by decide, ring_invariant_amended [SOp.complete 0, SOp.read 10]
    (by decide)⟩

/-- Claim C3.  Serial_GetRxCount returns exactly rxTotal plus the driver
in-flight count minus rxConsumed whenever that value is meaningful (no
borrow and no 32-bit wraparound); and after two consecutive
receive-complete events from the initialized state with no intervening
read, rxTotal is 1024, rxConsumed is 0 and Serial_GetRxCount returns
1024. -/
theorem getRxCount_exact :
    (∀ (s : SERIAL_COM) (u : Nat), s.rxi ≤ s.rxc + u → s.rxc + u < U32 →
      Serial_GetRxCount u s = s.rxc + u - s.rxi) ∧
    ((envRun 512 (⟨0, 0, 0, 0⟩, 0) [SOp.complete 0, SOp.complete 0]).1.rxc
        = 1024 ∧
     (envRun 512 (⟨0, 0, 0, 0⟩, 0) [SOp.complete 0, SOp.complete 0]).1.rxi
        = 0 ∧
     Serial_GetRxCount 0
       (envRun 512 (⟨0, 0, 0, 0⟩, 0) [SOp.complete 0, SOp.complete 0]).1
        = 1024) := by
  constructor
  · intro s u hle hlt
    unfold Serial_GetRxCount
    rw [Nat.mod_eq_of_lt hlt]
    exact u32sub_exact hle hlt
  · exact ⟨by decide, by decide, by decide⟩

/-- Claim C3, witness for the universally quantified part at a concrete
state: rxc 5, rxi 2, driver count 0 gives 3. -/
theorem getRxCount_exact_inst :
    (2 : Nat) ≤ 5 + 0 ∧ (5 : Nat) + 0 < U32 ∧
    Serial_GetRxCount 0 ⟨5, 2, 0, 0⟩ = 5 + 0 - 2 :=
  ⟨by decide, by decide,
   getRxCount_exact.1 ⟨5, 2, 0, 0⟩ 0 (by decide) (by decide)⟩

/-- Claim C2, counterexample.  With driver Initialize and Receive
succeeding but PowerControl and all three Control calls failing (status
-1), Serial_Initialize still returns success (0), because the source never
checks those four return values; so it is false that an error is returned
whenever any of the configuration steps fails. -/
theorem serial_init_claim_false :
    (Serial_Init 0 (-1) (-1) (-1) (-1) 0).err = 0 ∧
    (-1 : Int) ≠ ARM_DRIVER_OK := by
  constructor
  · rfl
  · decide

/-- Claim C2, amended.  Serial_Initialize returns an error (1) exactly when
the driver Initialize call or the initial Receive submission fails; the
PowerControl and Control statuses are not checked.  On such a failure no
receive request is left armed, and a receive is armed exactly on
success. -/
theorem serial_init_amended (i p c1 c2 c3 r : Int) :
    ((Serial_Init i p c1 c2 c3 r).err = 0 ↔
      (i = ARM_DRIVER_OK ∧ r = ARM_DRIVER_OK)) ∧
    ((Serial_Init i p c1 c2 c3 r).err = 0 ∨
      (Serial_Init i p c1 c2 c3 r).err = 1) ∧
    ((Serial_Init i p c1 c2 c3 r).armed = true ↔
      (Serial_Init i p c1 c2 c3 r).err = 0) := by
  unfold Serial_Init
  split
  · split
    · simp_all [ARM_DRIVER_OK]
    · simp_all [ARM_DRIVER_OK]
  · simp_all [ARM_DRIVER_OK]

/-- Claim C2, witness for the amended theorem: a failing Receive submission
(status -1) yields err = 1 and no armed receive. -/
theorem serial_init_amended_inst :
    ((Serial_Init 0 0 0 0 0 (-1)).err = 0 ↔
      ((0 : Int) = ARM_DRIVER_OK ∧ (-1 : Int) = ARM_DRIVER_OK)) ∧
    ((Serial_Init 0 0 0 0 0 (-1)).err = 0 ∨
      (Serial_Init 0 0 0 0 0 (-1)).err = 1) ∧
    ((Serial_Init 0 0 0 0 0 (-1)).armed = true ↔
      (Serial_Init 0 0 0 0 0 (-1)).err = 0) :=
  serial_init_amended 0 0 0 0 0 (-1)

/-- Claim C4.  Wraparound correctness of Serial_ReadBuf: for a power-of-two
capacity R = 2 ^ k, a state whose unread window of m bytes (with m at most
R, never exceeding R unread bytes) holds the bytes of a logical unbounded
stream, each logical position j stored physically at j mod R, a read of len
bytes returns the first min m len bytes of the stream in logical order,
exactly as a non-wrapping unbounded buffer would, even when the window
straddles the physical end of RxBuf. -/
theorem readBuf_wraparound (k a m u len : Nat) (rxbuf stream : Nat → Nat)
    (s : SERIAL_COM) (hrxi : s.rxi = a) (hsum : s.rxc + u = a + m)
    (hm : m ≤ 2 ^ k) (hlt : a + m < U32)
    (hbuf : ∀ i, i < m → rxbuf ((a + i) % 2 ^ k) = stream (a + i)) :
    (Serial_ReadBuf (2 ^ k) rxbuf u len s).bytes =
      (List.range (min m len)).map (fun i => stream (a + i)) := by
  have hle : s.rxi ≤ s.rxc + u := by omega
  have h0 : (s.rxc + u) % U32 = s.rxc + u :=
    Nat.mod_eq_of_lt (by omega)
  have hsub : u32sub ((s.rxc + u) % U32) s.rxi = m := by
    rw [h0]
    rw [u32sub_exact hle (by omega)]
    omega
  have hmin : (if m > len then len else m) = min m len := by
    split <;> omega
  have hbytes : (serialReadLoop (2 ^ k) rxbuf s.rxi (min m len)).1 =
      (List.range (min m len)).map (fun i => stream (a + i)) := by
    rw [hrxi]
    apply serialReadLoop_bytes k rxbuf stream (min m len) a (by omega)
    intro i hi
    exact hbuf i (by omega)
  simp only [Serial_ReadBuf, hsub, hmin, hbytes]

/-- Claim C4, witness at a concrete straddling read: capacity 4, logical
start 3, window of 2 bytes stored at physical indices 3 and 0, read of
length 2 returns the two bytes in logical order. -/
theorem readBuf_wraparound_inst :
    (∀ i, i < 2 →
      (fun x => if x = 3 then 30 else if x = 0 then 40 else 99)
          ((3 + i) % 2 ^ 2) =
        (fun j => if j = 3 then 30 else if j = 4 then 40 else 0) (3 + i)) ∧
    (Serial_ReadBuf (2 ^ 2)
        (fun x => if x = 3 then 30 else if x = 0 then 40 else 99) 0 2
        ⟨5, 3, 0, 0⟩).bytes =
      (List.range (min 2 2)).map
        (fun i => (fun j => if j = 3 then 30 else if j = 4 then 40 else 0)
          (3 + i)) ∧
    (Serial_ReadBuf (2 ^ 2)
        (fun x => if x = 3 then 30 else if x = 0 then 40 else 99) 0 2
        ⟨5, 3, 0, 0⟩).bytes = [30, 40] :=
  ⟨by decide,
   readBuf_wraparound 2 3 2 0 2
     (fun x => if x = 3 then 30 else if x = 0 then 40 else 99)
     (fun j => if j = 3 then 30 else if j = 4 then 40 else 0)
     ⟨5, 3, 0, 0⟩ rfl rfl (by decide) (by decide) (by decide),
   by decide⟩

/-- Receive mask arithmetic: if the combined timeout-or-complete mask
selects nothing of the event, the complete bit alone selects nothing. -/
theorem rx_mask_zero {event : Nat}
    (h : event &&& (ARM_USART_EVENT_RX_TIMEOUT |||
        ARM_USART_EVENT_RECEIVE_COMPLETE) = 0) :
    event &&& ARM_USART_EVENT_RECEIVE_COMPLETE = 0 := by
  rw [Nat.and_or_distrib_left] at h
  exact or_eq_zero_right h

/-- Combined mask arithmetic for the three recognized event bits. -/
theorem all_mask_zero {event : Nat}
    (h : event &&& (ARM_USART_EVENT_RX_TIMEOUT |||
        ARM_USART_EVENT_RECEIVE_COMPLETE |||
        ARM_USART_EVENT_SEND_COMPLETE) = 0) :
    event &&& (ARM_USART_EVENT_RX_TIMEOUT |||
        ARM_USART_EVENT_RECEIVE_COMPLETE) = 0 ∧
    event &&& ARM_USART_EVENT_SEND_COMPLETE = 0 := by
  rw [Nat.and_or_distrib_left] at h
  exact ⟨or_eq_zero_left h, or_eq_zero_right h⟩

/-- Structural fact: UART_Callback passes its merged flag word to Serial_Cb
in exactly one call. -/
theorem uartCb_calls (R : Nat) (rs : Int) (event : Nat) (s : SERIAL_COM) :
    (UART_Callback R rs event s).cbCalls =
      [(UART_Callback R rs event s).flags] := rfl

/-- Claim C5.  Event translation of UART_Callback, for every driver event
word: the data-available flag is set iff the event contains receive-timeout
or receive-complete; on receive-complete a receive of the full capacity R
is submitted, rxc grows by exactly R (modulo 2 ^ 32, not by a
driver-reported count) and the receive-error flag is set iff that
resubmission fails, while without receive-complete nothing is submitted,
rxc is unchanged and the receive-error flag is clear; the
transmit-complete flag is set iff the event contains send-complete, and
then txb is cleared; and the merged flag word goes out in a single
Serial_Cb call. -/
theorem uart_callback_events (R : Nat) (rs : Int) (event : Nat)
    (s : SERIAL_COM) :
    ((UART_Callback R rs event s).flags &&& SERIAL_CB_RX_DATA_AVAILABLE ≠ 0
      ↔ event &&& (ARM_USART_EVENT_RX_TIMEOUT |||
          ARM_USART_EVENT_RECEIVE_COMPLETE) ≠ 0) ∧
    (event &&& ARM_USART_EVENT_RECEIVE_COMPLETE ≠ 0 →
      (UART_Callback R rs event s).rxSubmits = [R] ∧
      (UART_Callback R rs event s).com.rxc = (s.rxc + R) % U32 ∧
      ((UART_Callback R rs event s).flags &&& SERIAL_CB_RX_ERROR ≠ 0 ↔
        rs ≠ ARM_DRIVER_OK)) ∧
    (event &&& ARM_USART_EVENT_RECEIVE_COMPLETE = 0 →
      (UART_Callback R rs event s).rxSubmits = [] ∧
      (UART_Callback R rs event s).com.rxc = s.rxc ∧
      (UART_Callback R rs event s).flags &&& SERIAL_CB_RX_ERROR = 0) ∧
    ((UART_Callback R rs event s).flags &&& SERIAL_CB_TX_DATA_COMPLETED ≠ 0
      ↔ event &&& ARM_USART_EVENT_SEND_COMPLETE ≠ 0) ∧
    (event &&& ARM_USART_EVENT_SEND_COMPLETE ≠ 0 →
      (UART_Callback R rs event s).com.txb = 0) ∧
    (event &&& ARM_USART_EVENT_SEND_COMPLETE = 0 →
      (UART_Callback R rs event s).com.txb = s.txb) ∧
    (UART_Callback R rs event s).cbCalls =
      [(UART_Callback R rs event s).flags] := by
  by_cases h2 : event &&& ARM_USART_EVENT_RECEIVE_COMPLETE ≠ 0
  · have h1 : event &&& (ARM_USART_EVENT_RX_TIMEOUT |||
        ARM_USART_EVENT_RECEIVE_COMPLETE) ≠ 0 :=
      fun hz => h2 (rx_mask_zero hz)
    by_cases hr : rs ≠ ARM_DRIVER_OK <;>
      by_cases h3 : event &&& ARM_USART_EVENT_SEND_COMPLETE ≠ 0 <;>
        simp [UART_Callback, h1, h2, h3, hr, SERIAL_CB_RX_DATA_AVAILABLE,
          SERIAL_CB_RX_ERROR, SERIAL_CB_TX_DATA_COMPLETED] <;>
        decide
  · have h2x : event &&& ARM_USART_EVENT_RECEIVE_COMPLETE = 0 :=
      not_not.mp h2
    by_cases h1 : event &&& (ARM_USART_EVENT_RX_TIMEOUT |||
        ARM_USART_EVENT_RECEIVE_COMPLETE) ≠ 0 <;>
      by_cases h3 : event &&& ARM_USART_EVENT_SEND_COMPLETE ≠ 0 <;>
        simp [UART_Callback, h1, h2x, h3, SERIAL_CB_RX_DATA_AVAILABLE,
          SERIAL_CB_RX_ERROR, SERIAL_CB_TX_DATA_COMPLETED] <;>
        decide

/-- Claim C5, witness: event word 3 (receive-complete and send-complete)
with a failing re-arm (status -1) submits a 512-byte receive, advances rxc
by 512 and reports a receive error. -/
theorem uart_callback_events_inst :
    (3 : Nat) &&& ARM_USART_EVENT_RECEIVE_COMPLETE ≠ 0 ∧
    ((UART_Callback 512 (-1) 3 ⟨0, 0, 0, 1⟩).rxSubmits = [512] ∧
     (UART_Callback 512 (-1) 3 ⟨0, 0, 0, 1⟩).com.rxc = (0 + 512) % U32 ∧
     ((UART_Callback 512 (-1) 3 ⟨0, 0, 0, 1⟩).flags &&& SERIAL_CB_RX_ERROR
        ≠ 0 ↔ (-1 : Int) ≠ ARM_DRIVER_OK)) :=
  ⟨by decide, (uart_callback_events 512 (-1) 3 ⟨0, 0, 0, 1⟩).2.1 (by decide)⟩

/-- Claim C10.  UART_Callback invokes Serial_Cb exactly once on every
invocation; when the event word contains none of the recognized bits
(receive-timeout, receive-complete, send-complete), the single call
carries the empty flag set 0. -/
theorem uart_callback_single_call (R : Nat) (rs : Int) (event : Nat)
    (s : SERIAL_COM) :
    (UART_Callback R rs event s).cbCalls.length = 1 ∧
    (event &&& (ARM_USART_EVENT_RX_TIMEOUT |||
        ARM_USART_EVENT_RECEIVE_COMPLETE |||
        ARM_USART_EVENT_SEND_COMPLETE) = 0 →
      (UART_Callback R rs event s).cbCalls = [0]) := by
  refine ⟨rfl, ?_⟩
  intro h
  obtain ⟨h1, h3⟩ := all_mask_zero h
  simp [UART_Callback, h1, h3]

/-- Claim C10, witness: the all-zero event word produces exactly one call
to Serial_Cb with the empty flag set. -/
theorem uart_callback_single_call_inst :
    (0 : Nat) &&& (ARM_USART_EVENT_RX_TIMEOUT |||
        ARM_USART_EVENT_RECEIVE_COMPLETE |||
        ARM_USART_EVENT_SEND_COMPLETE) = 0 ∧
    (UART_Callback 512 0 0 ⟨0, 0, 0, 0⟩).cbCalls = [0] :=
  ⟨by decide, (uart_callback_single_call 512 0 0 ⟨0, 0, 0, 0⟩).2 (by decide)⟩

/-- Truncated length of Serial_SendBuf is the minimum of the request and
the capacity. -/
theorem sendBuf_cnt (len : Nat) :
    (if len > SERIAL_TXBUF_SZ then SERIAL_TXBUF_SZ else len) =
      min len SERIAL_TXBUF_SZ := by
  split <;> omega

/-- Claim C6.  Truncation: for every input and every len strictly greater
than SERIAL_TXBUF_SZ, Serial_SendBuf copies exactly SERIAL_TXBUF_SZ bytes
into the transmit buffer (leaving the rest of it untouched), submits
exactly SERIAL_TXBUF_SZ bytes to the driver, and on a successful
submission returns SERIAL_TXBUF_SZ, which differs from len. -/
theorem sendBuf_truncation (buf txbuf : Nat → Nat) (len : Nat) (ss : Int)
    (s : SERIAL_COM) (h : len > SERIAL_TXBUF_SZ) :
    (Serial_SendBuf buf len ss txbuf s).submitted = SERIAL_TXBUF_SZ ∧
    (∀ j, j < SERIAL_TXBUF_SZ →
      (Serial_SendBuf buf len ss txbuf s).txbuf j = buf j) ∧
    (∀ j, SERIAL_TXBUF_SZ ≤ j →
      (Serial_SendBuf buf len ss txbuf s).txbuf j = txbuf j) ∧
    (ss = ARM_DRIVER_OK →
      (Serial_SendBuf buf len ss txbuf s).n = (SERIAL_TXBUF_SZ : Nat) ∧
      (Serial_SendBuf buf len ss txbuf s).n ≠ (len : Int)) := by
  have hmin : min len SERIAL_TXBUF_SZ = SERIAL_TXBUF_SZ := by
    unfold SERIAL_TXBUF_SZ at *; omega
  unfold Serial_SendBuf
  rw [sendBuf_cnt, hmin]
  split
  · refine ⟨rfl, ?_, ?_, ?_⟩
    · intro j hj; simp [hj]
    · intro j hj; simp [Nat.not_lt.mpr hj]
    · intro hss
      refine ⟨rfl, ?_⟩
      show ((SERIAL_TXBUF_SZ : Nat) : Int) ≠ (len : Int)
      unfold SERIAL_TXBUF_SZ at *
      omega
  · refine ⟨rfl, ?_, ?_, ?_⟩
    · intro j hj; simp [hj]
    · intro j hj; simp [Nat.not_lt.mpr hj]
    · intro hss
      exact absurd hss (by assumption)

/-- Claim C6, witness at len 513: 512 bytes submitted, byte 0 copied from
the input, byte 512 untouched, and the successful return value is 512. -/
theorem sendBuf_truncation_inst :
    (513 : Nat) > SERIAL_TXBUF_SZ ∧
    (Serial_SendBuf (fun _ => 7) 513 0 (fun _ => 9) ⟨0, 0, 0, 0⟩).submitted
      = SERIAL_TXBUF_SZ ∧
    (Serial_SendBuf (fun _ => 7) 513 0 (fun _ => 9) ⟨0, 0, 0, 0⟩).txbuf 0
      = 7 ∧
    (Serial_SendBuf (fun _ => 7) 513 0 (fun _ => 9) ⟨0, 0, 0, 0⟩).txbuf 512
      = 9 ∧
    (Serial_SendBuf (fun _ => 7) 513 0 (fun _ => 9) ⟨0, 0, 0, 0⟩).n = 512 := by
  have h := sendBuf_truncation (fun _ => 7) (fun _ => 9) 513 0 ⟨0, 0, 0, 0⟩
    (by decide)
  exact ⟨by decide, h.1,
    h.2.1 0 (by decide), h.2.2.1 512 (by decide),
    by have := (h.2.2.2 rfl).1; simpa [SERIAL_TXBUF_SZ] using this⟩

/-- Claim C7.  Postconditions of Serial_SendBuf: on a successful driver
submission txb is set to 1 and the returned value is the number of bytes
accepted, the minimum of len and the capacity; on a failed submission txb
is cleared to 0 and the returned value is -1. -/
theorem sendBuf_post (buf txbuf : Nat → Nat) (len : Nat) (ss : Int)
    (s : SERIAL_COM) :
    (ss = ARM_DRIVER_OK →
      (Serial_SendBuf buf len ss txbuf s).com.txb = 1 ∧
      (Serial_SendBuf buf len ss txbuf s).n =
        ((min len SERIAL_TXBUF_SZ : Nat) : Int)) ∧
    (ss ≠ ARM_DRIVER_OK →
      (Serial_SendBuf buf len ss txbuf s).com.txb = 0 ∧
      (Serial_SendBuf buf len ss txbuf s).n = -1) := by
  unfold Serial_SendBuf
  rw [sendBuf_cnt]
  split
  · exact ⟨fun _ => ⟨rfl, rfl⟩, fun hss => absurd (by assumption) hss⟩
  · exact ⟨fun hss => absurd hss (by assumption), fun _ => ⟨rfl, rfl⟩⟩

/-- Claim C7, witness: a successful submission of 100 bytes sets txb and
returns 100; a failed submission of 100 bytes clears txb and returns
-1. -/
theorem sendBuf_post_inst :
    ((Serial_SendBuf (fun _ => 7) 100 0 (fun _ => 9) ⟨0, 0, 0, 0⟩).com.txb
       = 1 ∧
     (Serial_SendBuf (fun _ => 7) 100 0 (fun _ => 9) ⟨0, 0, 0, 0⟩).n =
       ((min 100 SERIAL_TXBUF_SZ : Nat) : Int)) ∧
    ((Serial_SendBuf (fun _ => 7) 100 (-1) (fun _ => 9) ⟨0, 0, 0, 1⟩).com.txb
       = 0 ∧
     (Serial_SendBuf (fun _ => 7) 100 (-1) (fun _ => 9) ⟨0, 0, 0, 1⟩).n
       = -1) :=
  ⟨(sendBuf_post (fun _ => 7) (fun _ => 9) 100 0 ⟨0, 0, 0, 0⟩).1 rfl,
   (sendBuf_post (fun _ => 7) (fun _ => 9) 100 (-1) ⟨0, 0, 0, 1⟩).2
     (by decide)⟩

/-- Claim C8.  Serial_SetBaudrate writes zero into all four state fields
(rxc, rxi, txi, txb) regardless of the statuses any driver step returns
and regardless of the state before the call. -/
theorem setBaudrate_resets (ab cfg ctx crx rcv : Int) (baud : Nat)
    (s : SERIAL_COM) :
    (Serial_SetBaudrate ab cfg ctx crx rcv baud s).com =
      { rxc := 0, rxi := 0, txi := 0, txb := 0 } := rfl

/-- Claim C9, counterexample.  Serial_Uninitialize does not reset the
counters or the busy flag: from a state with rxc 7, rxi 3, txi 2, txb 1
the control structure still holds those values after the call, so the
claimed clearing of the transport state at this call site is false. -/
theorem uninit_claim_false :
    ¬ ((Serial_Uninit (fun _ => 0) (fun _ => 0) ⟨7, 3, 2, 1⟩).com.rxc = 0 ∧
       (Serial_Uninit (fun _ => 0) (fun _ => 0) ⟨7, 3, 2, 1⟩).com.rxi = 0 ∧
       (Serial_Uninit (fun _ => 0) (fun _ => 0) ⟨7, 3, 2, 1⟩).com.txi = 0 ∧
       (Serial_Uninit (fun _ => 0) (fun _ => 0) ⟨7, 3, 2, 1⟩).com.txb = 0)
    := by decide

/-- Claim C9, amended.  Serial_Uninitialize always returns 0 and zeroes the
full contents of both the receive and the transmit buffer, but leaves the
control structure (the counters and the busy flag) untouched; those fields
are reset only by Serial_Initialize and Serial_SetBaudrate. -/
theorem uninit_amended (rx tx : Nat → Nat) (s : SERIAL_COM) :
    (Serial_Uninit rx tx s).ret = 0 ∧
    (∀ j, j < SERIAL_RXBUF_SZ → (Serial_Uninit rx tx s).rxbuf j = 0) ∧
    (∀ j, j < SERIAL_TXBUF_SZ → (Serial_Uninit rx tx s).txbuf j = 0) ∧
    (Serial_Uninit rx tx s).com = s := by
  refine ⟨rfl, ?_, ?_, rfl⟩
  · intro j hj
    simp [Serial_Uninit, hj]
  · intro j hj
    simp [Serial_Uninit, hj]

/-- Claim C9, witness: return value 0 and a zeroed receive byte at index 0
from a buffer previously holding 5 there. -/
theorem uninit_amended_inst :
    (0 : Nat) < SERIAL_RXBUF_SZ ∧
    (Serial_Uninit (fun _ => 5) (fun _ => 5) ⟨1, 2, 3, 4⟩).rxbuf 0 = 0 ∧
    (Serial_Uninit (fun _ => 5) (fun _ => 5) ⟨1, 2, 3, 4⟩).ret = 0 :=
  ⟨by decide,
   (uninit_amended (fun _ => 5) (fun _ => 5) ⟨1, 2, 3, 4⟩).2.1 0 (by decide),
   (uninit_amended (fun _ => 5) (fun _ => 5) ⟨1, 2, 3, 4⟩).1⟩

end ESP8266Serial
